import Mathlib

/-!
Verification development for the audio-transcriber repository.

The chunking-and-reassembly core is shallowly embedded in Lean:

* JavaScript numbers are modelled as exact rationals; the arithmetic in the
  source stays far away from overflow and rounding cliffs for all inputs
  considered here, so the model matches the source semantics on them.
* JavaScript exceptions are modelled with Option: a function that can throw
  returns none on the thrown path.
* Byte buffers (the WAV blob built by a DataView) are modelled as List of
  byte values; the source writes bytes at strictly increasing offsets, so
  the sequential list concatenation reproduces the buffer contents.
* The remote transcription backend is modelled as an oracle: a function from
  chunk index and attempt number to the result the backend call returns.
-/

/-! ## JavaScript primitives -/

/-- Truncation toward zero, the integer conversion used by JavaScript
ToIntegerOrInfinity (and hence by DataView.setInt16 and by the fmod
operator percent). -/
def jsTrunc (x : ℚ) : ℤ := if 0 ≤ x then ⌊x⌋ else ⌈x⌉

/-- JavaScript remainder a percent b (fmod): a - b * trunc (a / b). -/
def jsMod (a b : ℚ) : ℚ := a - b * (jsTrunc (a / b) : ℚ)

/-- JavaScript String.prototype.trim, stripping whitespace from both ends
(modelled on the ASCII whitespace that Char.isWhitespace recognises). -/
def jsTrim (s : String) : String :=
  ⟨((s.data.dropWhile Char.isWhitespace).reverse.dropWhile Char.isWhitespace).reverse⟩

/-- JavaScript String.prototype.padStart with a pad character. -/
def padLeft (s : String) (n : ℕ) (c : Char) : String :=
  if s.length < n then ⟨List.replicate (n - s.length) c⟩ ++ s else s

/-- Truthiness of an optional string field, as JavaScript evaluates it:
absent and empty strings are falsy. -/
def jsTruthy : Option String → Bool
  | none => false
  | some s => s ≠ ""

/-- JavaScript `v || d` applied to an optional numeric option: absent or
zero (falsy) selects the default. -/
def jsNumOr (v : Option ℚ) (d : ℚ) : ℚ :=
  match v with
  | none => d
  | some x => if x = 0 then d else x

/-- JavaScript Math.max spread over a list, in the contexts where the list
is known non-empty (Math.max of no arguments is minus infinity, which the
source never relies on; 0 is returned here for the empty list). -/
def jsMaxList : List ℚ → ℚ
  | [] => 0
  | x :: xs => xs.foldl max x

/-! ## Data model of the Segmenter and Encoder (src audioChunker) -/

/-- Decoded raw audio: the shape of a Web Audio API AudioBuffer.
channelData c i is the i-th float sample of channel c; reads are made
through jsSampleRead which reproduces the out-of-range-gives-zero reads
of the source (sourceData[startSample + i] or-else 0). -/
structure AudioBuffer where
  sampleRate : ℕ
  numberOfChannels : ℕ
  length : ℕ
  duration : ℚ
  channelData : ℕ → ℕ → ℚ

/-- Read sample i of channel c; out of range yields 0, as the source's
`sourceData[startSample + i] || 0` does. -/
def jsSampleRead (b : AudioBuffer) (c i : ℕ) : ℚ :=
  if i < b.length then b.channelData c i else 0

/-- ChunkingOptions of the source: chunkDurationSeconds, optional
overlapSeconds and optional maxChunkSize (bytes). -/
structure ChunkingOptions where
  chunkDurationSeconds : ℚ
  overlapSeconds : Option ℚ := none
  maxChunkSize : Option ℚ := none

/-- One audio chunk: the fresh buffer holding the copied samples plus the
metadata pushed by createAudioChunks. The encoded blob is obtained by
applying audioBufferToBlob to the buffer. -/
structure AudioChunk where
  buffer : AudioBuffer
  startTime : ℚ
  endTime : ℚ
  index : ℕ

/-! ## Encoder: audioBufferToBlob -/

/-- Little-endian bytes of a 16-bit write (DataView.setUint16 / setInt16
store the low 16 bits of the value). -/
def u16le (n : ℕ) : List ℕ := [n % 256, n / 256 % 256]

/-- Little-endian bytes of a 32-bit write (DataView.setUint32). -/
def u32le (n : ℕ) : List ℕ :=
  [n % 256, n / 256 % 256, n / 65536 % 256, n / 16777216 % 256]

/-- Clamp a float sample into [-1, 1]: Math.max(-1, Math.min(1, s)). -/
def clampSample (x : ℚ) : ℚ := max (-1) (min 1 x)

/-- The 16-bit pattern DataView.setInt16 stores for the scaled sample:
the value sample * 0x7FFF is truncated toward zero and reduced mod 2^16. -/
def sampleToInt16Bits (x : ℚ) : ℕ := ((jsTrunc (clampSample x * 32767)) % 65536).toNat

/-- The 44-byte RIFF/WAVE header written by audioBufferToBlob, field by
field at offsets 0..43: RIFF, file size, WAVE, fmt chunk (PCM, channel
count, sample rate, byte rate, block align, 16 bits), data chunk size. -/
def wavHeader (b : AudioBuffer) : List ℕ :=
  [82, 73, 70, 70]
  ++ u32le (36 + b.length * b.numberOfChannels * 2)
  ++ [87, 65, 86, 69]
  ++ [102, 109, 116, 32]
  ++ u32le 16
  ++ u16le 1
  ++ u16le b.numberOfChannels
  ++ u32le b.sampleRate
  ++ u32le (b.sampleRate * b.numberOfChannels * 2)
  ++ u16le (b.numberOfChannels * 2)
  ++ u16le 16
  ++ [100, 97, 116, 97]
  ++ u32le (b.length * b.numberOfChannels * 2)

/-- audioBufferToBlob: the byte content of the WAV blob, a 44-byte header
followed by the samples of each frame, channels interleaved within the
frame, each as a little-endian 16-bit integer. -/
def audioBufferToBlob (b : AudioBuffer) : List ℕ :=
  wavHeader b
  ++ (List.range b.length).flatMap (fun i =>
      (List.range b.numberOfChannels).flatMap (fun c =>
        u16le (sampleToInt16Bits (b.channelData c i))))

/-! ## Segmenter: createAudioChunks -/

/-- bytesPerSecond of the 16-bit PCM encoding:
sampleRate * numberOfChannels * 2. -/
def bytesPerSecondOf (b : AudioBuffer) : ℕ :=
  b.sampleRate * b.numberOfChannels * 2

/-- maxDurationForSize: Math.floor((maxChunkSize * 0.95 - 44) / bytesPerSecond),
the longest whole-second duration whose estimated encoding fits in 95
percent of the byte budget. -/
def maxDurationForSize (b : AudioBuffer) (maxChunkSize : ℚ) : ℤ :=
  ⌊(maxChunkSize * (95 / 100) - 44) / (bytesPerSecondOf b : ℚ)⌋

/-- The chunk duration actually used by the walk:
max(5, min(chunkDurationSeconds, maxDurationForSize)). -/
def effectiveChunkDuration (b : AudioBuffer) (target maxChunkSize : ℚ) : ℚ :=
  max 5 (min target ((maxDurationForSize b maxChunkSize : ℤ) : ℚ))

/-- The estimated encoded size checked by the fail-fast guard:
chunkDuration * bytesPerSecond + 44. -/
def estimatedChunkSize (b : AudioBuffer) (target maxChunkSize : ℚ) : ℚ :=
  effectiveChunkDuration b target maxChunkSize * (bytesPerSecondOf b : ℚ) + 44

/-- The fresh buffer created for one chunk: frameCount frames copied from
the source starting at startSample, per channel, missing indices read as 0. -/
def mkChunkBuffer (src : AudioBuffer) (startSample frameCount : ℕ) : AudioBuffer :=
  { sampleRate := src.sampleRate
    numberOfChannels := src.numberOfChannels
    length := frameCount
    duration := (frameCount : ℚ) / (src.sampleRate : ℚ)
    channelData := fun c i => jsSampleRead src c (startSample + i) }

/-- The while loop of createAudioChunks: while currentTime < duration,
compute the overlap-extended copy window, build the chunk buffer, push the
chunk carrying startTime := currentTime (the walk cursor, not the
overlap-extended start), and advance the cursor by chunkDuration.
The hypothesis 5 <= chunkDuration records the clamp applied before the
loop and makes the walk terminate. -/
def chunkLoop (src : AudioBuffer) (chunkDuration overlap : ℚ)
    (hcd : 5 ≤ chunkDuration) (currentTime : ℚ) (chunkIndex : ℕ) : List AudioChunk :=
  if currentTime < src.duration then
    let startTime := max 0 (currentTime - overlap)
    let endTime := min src.duration (currentTime + chunkDuration)
    let startSample := ⌊startTime * (src.sampleRate : ℚ)⌋
    let endSample := ⌊endTime * (src.sampleRate : ℚ)⌋
    let frameCount := (endSample - startSample).toNat
    { buffer := mkChunkBuffer src startSample.toNat frameCount
      startTime := currentTime
      endTime := endTime
      index := chunkIndex }
      :: chunkLoop src chunkDuration overlap hcd (currentTime + chunkDuration) (chunkIndex + 1)
  else []
termination_by (⌈(src.duration - currentTime) / chunkDuration⌉).toNat
decreasing_by
  rename_i h
  have hcd0 : (0 : ℚ) < chunkDuration := lt_of_lt_of_le (by norm_num) hcd
  have h1 : (0 : ℚ) < (src.duration - currentTime) / chunkDuration :=
    div_pos (by linarith) hcd0
  have h2 : ⌈(src.duration - (currentTime + chunkDuration)) / chunkDuration⌉
      = ⌈(src.duration - currentTime) / chunkDuration⌉ - 1 := by
    rw [show src.duration - (currentTime + chunkDuration)
        = (src.duration - currentTime) + (-1) * chunkDuration by ring]
    rw [add_div, mul_div_assoc, div_self (ne_of_gt hcd0)]
    rw [show (src.duration - currentTime) / chunkDuration + -1 * 1
        = (src.duration - currentTime) / chunkDuration + ((-1 : ℤ) : ℚ) by push_cast; ring]
    exact Int.ceil_add_int _ _
  have h3 : (0 : ℤ) < ⌈(src.duration - currentTime) / chunkDuration⌉ := Int.ceil_pos.mpr h1
  rw [h2]
  omega

/-- createAudioChunks: resolve the option defaults, derive the effective
chunk duration from the byte budget, fail fast (none) when the estimated
chunk size still exceeds the budget, and otherwise walk the timeline from
t = 0. -/
def createAudioChunks (src : AudioBuffer) (options : ChunkingOptions) :
    Option (List AudioChunk) :=
  let overlap := jsNumOr options.overlapSeconds 0
  let maxChunkSize := jsNumOr options.maxChunkSize (20 * 1024 * 1024)
  let chunkDuration := effectiveChunkDuration src options.chunkDurationSeconds maxChunkSize
  if estimatedChunkSize src options.chunkDurationSeconds maxChunkSize > maxChunkSize then
    none
  else
    some (chunkLoop src chunkDuration overlap (le_max_left _ _) 0 0)

/-! ## Orchestrator: transcribeAudioInChunks (src chunkedTranscription) -/

/-- The result one call of transcribeAudio resolves with; the source's
transcribeAudio never rejects, failures come back in the error field. -/
structure TranscriptionResult where
  text : String
  language : Option String := none
  durationInfo : Option ℚ := none
  error : Option String := none

/-- Per-segment result recorded by the orchestration loop. -/
structure ChunkTranscriptionResult where
  chunkIndex : ℕ
  startTime : ℚ
  endTime : ℚ
  text : String
  error : Option String := none

/-- The merged outcome of a chunked transcription run. -/
structure ChunkedTranscriptionResult where
  fullText : String
  chunks : List ChunkTranscriptionResult
  totalDuration : ℚ
  error : Option String := none

/-- The retry loop around one chunk's transcribeAudio call, with maxRetries
= 2. The argument attempt gives the backend's answer to the k-th attempt;
left counts the attempts the loop may still start after the current one
(2 - retries). Returns the final result, the number of attempts performed,
and the list of pause delays (milliseconds) awaited between attempts. -/
def retryAux (attempt : ℕ → TranscriptionResult) :
    (retries left : ℕ) → TranscriptionResult × ℕ × List ℕ
  | retries, 0 => (attempt retries, 1, [])
  | retries, left + 1 =>
    let result := attempt retries
    if jsTruthy result.error then
      let rest := retryAux attempt (retries + 1) left
      (rest.1, rest.2.1 + 1, 2000 :: rest.2.2)
    else
      (result, 1, [])

/-- The whole retry loop: retries starts at 0 and the loop runs while
retries <= maxRetries = 2, breaking on the first attempt whose error field
is falsy and pausing 2000 ms before every retry. -/
def runWithRetries (attempt : ℕ → TranscriptionResult) :
    TranscriptionResult × ℕ × List ℕ :=
  retryAux attempt 0 2

/-- Processing of one chunk by the orchestration loop: run the retry loop,
then record either the transcribed text or the last error with empty text. -/
def processChunk (attempt : ℕ → TranscriptionResult) (chunk : AudioChunk) :
    ChunkTranscriptionResult :=
  let result := (runWithRetries attempt).1
  if jsTruthy result.error then
    { chunkIndex := chunk.index
      startTime := chunk.startTime
      endTime := chunk.endTime
      text := ""
      error := result.error }
  else
    { chunkIndex := chunk.index
      startTime := chunk.startTime
      endTime := chunk.endTime
      text := result.text
      error := none }

/-- transcribeAudioInChunks on the remote path, given the list of chunks
produced by the chunker and the backend oracle (chunk index, attempt
number, result). The empty-chunk guard precedes the local/remote branch in
the source, throws, and the catch-all converts the throw into the error
outcome modelled by the first branch. Afterwards each chunk is processed
sequentially, results are merged: successful chunks sorted by chunkIndex,
trimmed, empties dropped, joined by single spaces; totalDuration is the
Math.max of the chunk end times; the aggregate error marker is set iff some
chunk result carries an error. -/
def transcribeAudioInChunks (transcribe : ℕ → ℕ → TranscriptionResult)
    (chunks : List AudioChunk) : ChunkedTranscriptionResult :=
  if chunks.length = 0 then
    { fullText := ""
      chunks := []
      totalDuration := 0
      error := some "No chunks were created from the audio file" }
  else
    let chunkResults := chunks.map (fun c => processChunk (transcribe c.index) c)
    let hasError := chunkResults.any (fun r => jsTruthy r.error)
    let successfulChunks := chunkResults.filter (fun r => !jsTruthy r.error)
    let sorted := successfulChunks.mergeSort (fun a b => a.chunkIndex ≤ b.chunkIndex)
    let fullText := String.intercalate " "
      ((sorted.map (fun r => jsTrim r.text)).filter (fun t => t.length > 0))
    { fullText := fullText
      chunks := chunkResults
      totalDuration := jsMaxList (chunks.map AudioChunk.endTime)
      error := if hasError then some "Some chunks failed to transcribe" else none }

/-! ## Exporter: SRT and VTT (src chunkedTranscription) -/

/-- formatSRTTime: HH:MM:SS,mmm with Math.floor fields, each zero-padded. -/
def formatSRTTime (seconds : ℚ) : String :=
  let hours := ⌊seconds / 3600⌋
  let minutes := ⌊jsMod seconds 3600 / 60⌋
  let secs := ⌊jsMod seconds 60⌋
  let ms := ⌊jsMod seconds 1 * 1000⌋
  padLeft (toString hours) 2 '0' ++ ":" ++ padLeft (toString minutes) 2 '0'
    ++ ":" ++ padLeft (toString secs) 2 '0' ++ "," ++ padLeft (toString ms) 3 '0'

/-- Number.prototype.toFixed(3): the integer n closest to x * 1000 (ties
pick the larger), rendered with exactly three fractional digits; a negative
x is rendered as the minus sign followed by the rendering of -x. -/
def jsToFixed3 (x : ℚ) : String :=
  if x < 0 then
    "-" ++ (toString ((⌊(-x) * 1000 + 1 / 2⌋).toNat / 1000) ++ "."
      ++ padLeft (toString ((⌊(-x) * 1000 + 1 / 2⌋).toNat % 1000)) 3 '0')
  else
    toString ((⌊x * 1000 + 1 / 2⌋).toNat / 1000) ++ "."
      ++ padLeft (toString ((⌊x * 1000 + 1 / 2⌋).toNat % 1000)) 3 '0'

/-- formatVTTTime: HH:MM:SS.mmm, with the hours segment omitted when the
hour count is zero; the seconds field is seconds mod 60 via toFixed(3)
padded on the left to six characters. -/
def formatVTTTime (seconds : ℚ) : String :=
  let hours := ⌊seconds / 3600⌋
  let minutes := ⌊jsMod seconds 3600 / 60⌋
  let secs := jsMod seconds 60
  if hours > 0 then
    padLeft (toString hours) 2 '0' ++ ":" ++ padLeft (toString minutes) 2 '0'
      ++ ":" ++ padLeft (jsToFixed3 secs) 6 '0'
  else
    padLeft (toString minutes) 2 '0' ++ ":" ++ padLeft (jsToFixed3 secs) 6 '0'

/-- One SRT cue: running subtitle number, time range line, trimmed text,
blank separator. -/
def srtEntry (idx : ℕ) (r : ChunkTranscriptionResult) : String :=
  toString idx ++ "\n" ++ formatSRTTime r.startTime ++ " --> " ++ formatSRTTime r.endTime
    ++ "\n" ++ jsTrim r.text ++ "\n\n"

/-- Kept-by-the-SRT-and-VTT-renderers test: not errored and non-empty after
trimming (the truthiness test on chunk.text.trim()). -/
def keepForSubtitles (r : ChunkTranscriptionResult) : Bool :=
  !jsTruthy r.error && jsTrim r.text ≠ ""

/-- The forEach loop of generateSRTFile: subtitleIndex starts at 1 and is
incremented only when a cue is emitted. -/
def srtAux : List ChunkTranscriptionResult → ℕ → String
  | [], _ => ""
  | r :: rest, idx =>
    if keepForSubtitles r then srtEntry idx r ++ srtAux rest (idx + 1)
    else srtAux rest idx

/-- generateSRTFile: the text content of the generated SRT blob. -/
def generateSRTContent (result : ChunkedTranscriptionResult) : String :=
  srtAux result.chunks 1

/-! ## Helper lemmas about the Segmenter walk -/

/-- Unfolding of createAudioChunks on the success path: when the fail-fast
estimate fits the budget, the walk runs from t = 0 with index 0. -/
lemma createAudioChunks_eq_some (src : AudioBuffer) (opts : ChunkingOptions)
    (h : estimatedChunkSize src opts.chunkDurationSeconds
          (jsNumOr opts.maxChunkSize (20 * 1024 * 1024))
        ≤ jsNumOr opts.maxChunkSize (20 * 1024 * 1024)) :
    createAudioChunks src opts
      = some (chunkLoop src
          (effectiveChunkDuration src opts.chunkDurationSeconds
            (jsNumOr opts.maxChunkSize (20 * 1024 * 1024)))
          (jsNumOr opts.overlapSeconds 0) (le_max_left _ _) 0 0) := by
  unfold createAudioChunks
  rw [if_neg (not_lt.mpr h)]

/-- The fail-fast guard characterises success of createAudioChunks. -/
lemma createAudioChunks_isSome_iff (src : AudioBuffer) (opts : ChunkingOptions) :
    (createAudioChunks src opts).isSome
      ↔ estimatedChunkSize src opts.chunkDurationSeconds
          (jsNumOr opts.maxChunkSize (20 * 1024 * 1024))
        ≤ jsNumOr opts.maxChunkSize (20 * 1024 * 1024) := by
  unfold createAudioChunks
  by_cases h : estimatedChunkSize src opts.chunkDurationSeconds
      (jsNumOr opts.maxChunkSize (20 * 1024 * 1024))
    > jsNumOr opts.maxChunkSize (20 * 1024 * 1024)
  · rw [if_pos h]
    simpa using h
  · rw [if_neg h]
    simpa using not_lt.mp h

/-- The chunk record pushed by one iteration of the walk at cursor t:
startTime is the cursor itself, endTime is min duration (t + cd), and the
buffer copies the overlap-extended window starting at max 0 (t - o). -/
def walkChunkAt (src : AudioBuffer) (cd o t : ℚ) (idx : ℕ) : AudioChunk :=
  { buffer := mkChunkBuffer src (⌊max 0 (t - o) * (src.sampleRate : ℚ)⌋).toNat
      ((⌊min src.duration (t + cd) * (src.sampleRate : ℚ)⌋
        - ⌊max 0 (t - o) * (src.sampleRate : ℚ)⌋).toNat)
    startTime := t
    endTime := min src.duration (t + cd)
    index := idx }

/-- Element i of the walk started at cursor t with running index idx: it
exists iff the cursor t + i * chunkDuration is still before the total
duration, and then it is the walkChunkAt record of that cursor. -/
lemma chunkLoop_getElem? (src : AudioBuffer) (cd o : ℚ) (hcd : 5 ≤ cd) :
    ∀ (i : ℕ) (t : ℚ) (idx : ℕ),
    (chunkLoop src cd o hcd t idx)[i]? =
      if t + i * cd < src.duration then some (walkChunkAt src cd o (t + i * cd) (idx + i))
      else none := by
  intro i
  induction i with
  | zero =>
    intro t idx
    rw [chunkLoop]
    by_cases h : t < src.duration
    · simp [h, walkChunkAt]
    · simp [h]
  | succ n ih =>
    intro t idx
    rw [chunkLoop]
    by_cases h : t < src.duration
    · rw [if_pos h]
      rw [List.getElem?_cons_succ]
      rw [ih (t + cd) (idx + 1)]
      have e1 : t + cd + (n : ℚ) * cd = t + ((n + 1 : ℕ) : ℚ) * cd := by
        push_cast
        ring
      have e2 : idx + 1 + n = idx + (n + 1) := by omega
      rw [e1, e2]
    · rw [if_neg h]
      have hpos : (0 : ℚ) ≤ ((n + 1 : ℕ) : ℚ) * cd := by
        have : (0 : ℚ) ≤ ((n + 1 : ℕ) : ℚ) := by positivity
        nlinarith
      rw [if_neg (by push_cast at hpos ⊢; linarith)]
      simp

/-! ## Claim C1 -/

/-- The concrete scenario audio of C1: 16 kHz mono, 130 seconds. -/
def c1demoAudio : AudioBuffer :=
  { sampleRate := 16000
    numberOfChannels := 1
    length := 2080000
    duration := 130
    channelData := fun _ _ => 0 }

/-- The concrete scenario options of C1: 120 s chunks, 5 s overlap, 20 MB cap. -/
def c1demoOptions : ChunkingOptions :=
  { chunkDurationSeconds := 120
    overlapSeconds := some 5
    maxChunkSize := some 20971520 }

/-- C1 (amended): for every raw audio and config accepted by the fail-fast
check, the segment produced at walk-cursor t = i * effectiveDuration has
startTime field equal to the walk cursor t itself (not max 0 (t - overlap))
and endTime field equal to min totalDuration (t + effectiveDuration); the
overlap only extends the copied sample window, whose copied frame range is
floor (max 0 (t - overlap) * sampleRate) up to floor (endTime * sampleRate).
In the concrete scenario (16 kHz mono, 130 s, chunks of 120 s, overlap 5 s,
sufficient maxChunkSize) this yields exactly 2 segments with fields
[0, 120) and [120, 130), the second copying samples from 115 s on. -/
theorem c1_walk_cursor_fields (src : AudioBuffer) (opts : ChunkingOptions) (i : ℕ)
    (cd o : ℚ)
    (hcd : cd = effectiveChunkDuration src opts.chunkDurationSeconds
      (jsNumOr opts.maxChunkSize (20 * 1024 * 1024)))
    (ho : o = jsNumOr opts.overlapSeconds 0)
    (hsome : (createAudioChunks src opts).isSome) :
    ((createAudioChunks src opts).getD [])[i]? =
      (if (i : ℚ) * cd < src.duration then some (walkChunkAt src cd o ((i : ℚ) * cd) i)
       else none)
    ∧ (walkChunkAt src cd o ((i : ℚ) * cd) i).startTime = (i : ℚ) * cd
    ∧ (walkChunkAt src cd o ((i : ℚ) * cd) i).endTime
        = min src.duration ((i : ℚ) * cd + cd)
    ∧ (walkChunkAt src cd o ((i : ℚ) * cd) i).index = i
    ∧ (walkChunkAt src cd o ((i : ℚ) * cd) i).buffer.length
        = (⌊min src.duration ((i : ℚ) * cd + cd) * (src.sampleRate : ℚ)⌋
            - ⌊max 0 ((i : ℚ) * cd - o) * (src.sampleRate : ℚ)⌋).toNat := by
  subst hcd ho
  refine ⟨?_, rfl, rfl, rfl, rfl⟩
  have hest := (createAudioChunks_isSome_iff src opts).mp hsome
  rw [createAudioChunks_eq_some src opts hest]
  rw [Option.getD_some]
  rw [chunkLoop_getElem?]
  simp only [zero_add, Nat.zero_add]

/-- Witness for C1 at the concrete scenario: segment 1 has fields
index 1, startTime 120, endTime 130, its copied window starts at sample
115 * 16000 = 1840000, and there is no segment 2. -/
theorem c1_walk_cursor_fields_witness :
    (((createAudioChunks c1demoAudio c1demoOptions).getD [])[1]?).map
        (fun c => (c.index, c.startTime, c.endTime, c.buffer.length))
      = some (1, 120, 130, 240000)
    ∧ (((createAudioChunks c1demoAudio c1demoOptions).getD [])[2]?).map
        (fun c => (c.index, c.startTime, c.endTime)) = none := by
  have hsome : (createAudioChunks c1demoAudio c1demoOptions).isSome := by
    rw [createAudioChunks_isSome_iff]
    norm_num [estimatedChunkSize, effectiveChunkDuration, maxDurationForSize,
      bytesPerSecondOf, jsNumOr, c1demoAudio, c1demoOptions]
  have hcd : effectiveChunkDuration c1demoAudio c1demoOptions.chunkDurationSeconds
      (jsNumOr c1demoOptions.maxChunkSize (20 * 1024 * 1024)) = 120 := by
    norm_num [effectiveChunkDuration, maxDurationForSize, bytesPerSecondOf,
      jsNumOr, c1demoAudio, c1demoOptions]
  have ho : jsNumOr c1demoOptions.overlapSeconds 0 = 5 := by
    norm_num [jsNumOr, c1demoOptions]
  have h1 := c1_walk_cursor_fields c1demoAudio c1demoOptions 1 120 5 hcd.symm ho.symm hsome
  have h2 := c1_walk_cursor_fields c1demoAudio c1demoOptions 2 120 5 hcd.symm ho.symm hsome
  constructor
  · rw [h1.1]
    rw [if_pos (by norm_num [c1demoAudio])]
    simp only [Option.map_some']
    rw [h1.2.2.1, h1.2.2.2.1, h1.2.2.2.2]
    norm_num [walkChunkAt, c1demoAudio]
    rfl
  · rw [h2.1]
    rw [if_neg (by norm_num [c1demoAudio])]
    rfl

/-- Counterexample to C1 as stated: in the concrete scenario the segment at
walk-cursor t = 120 carries startTime field 120, not
max 0 (t - overlapSeconds) = 115. -/
theorem c1_startTime_counterexample :
    (((createAudioChunks c1demoAudio c1demoOptions).getD [])[1]?).map
        AudioChunk.startTime = some 120
    ∧ max (0 : ℚ) (120 - 5) = 115
    ∧ ¬ ((120 : ℚ) = max (0 : ℚ) (120 - 5)) := by
  refine ⟨?_, by norm_num, by norm_num⟩
  have hest : estimatedChunkSize c1demoAudio c1demoOptions.chunkDurationSeconds
      (jsNumOr c1demoOptions.maxChunkSize (20 * 1024 * 1024))
      ≤ jsNumOr c1demoOptions.maxChunkSize (20 * 1024 * 1024) := by
    norm_num [estimatedChunkSize, effectiveChunkDuration, maxDurationForSize,
      bytesPerSecondOf, jsNumOr, c1demoAudio, c1demoOptions]
  rw [createAudioChunks_eq_some c1demoAudio c1demoOptions hest]
  rw [Option.getD_some]
  rw [chunkLoop_getElem?]
  rw [if_pos (by norm_num [effectiveChunkDuration, maxDurationForSize,
    bytesPerSecondOf, jsNumOr, c1demoAudio, c1demoOptions])]
  simp only [Option.map_some']
  norm_num [walkChunkAt, effectiveChunkDuration, maxDurationForSize,
    bytesPerSecondOf, jsNumOr, c1demoAudio, c1demoOptions]

/-! ## Claim C6 -/

/-- C6: for audio passing the fail-fast size check, zero duration yields
zero segments, and positive duration D makes the maximum segment endTime
equal to D: D is attained by some segment and bounds all of them (the tail
segment is cut at D, never padded). -/
theorem c6_tail_exact (src : AudioBuffer) (opts : ChunkingOptions)
    (hsome : (createAudioChunks src opts).isSome) :
    (src.duration = 0 → (createAudioChunks src opts).getD [] = [])
    ∧ (0 < src.duration →
        src.duration ∈ ((createAudioChunks src opts).getD []).map AudioChunk.endTime
        ∧ ∀ e ∈ ((createAudioChunks src opts).getD []).map AudioChunk.endTime,
            e ≤ src.duration) := by
  have hest := (createAudioChunks_isSome_iff src opts).mp hsome
  rw [createAudioChunks_eq_some src opts hest]
  rw [Option.getD_some]
  set cd := effectiveChunkDuration src opts.chunkDurationSeconds
    (jsNumOr opts.maxChunkSize (20 * 1024 * 1024)) with hcddef
  set o := jsNumOr opts.overlapSeconds 0 with hodef
  have hcd5 : (5 : ℚ) ≤ cd := le_max_left _ _
  have hcd0 : (0 : ℚ) < cd := by linarith
  constructor
  · intro hD
    rw [chunkLoop]
    rw [if_neg (by rw [hD]; exact lt_irrefl 0)]
  · intro hD
    constructor
    · -- the last walked segment index is ceil (D / cd) - 1 and it ends at D
      have hNpos : (0 : ℤ) < ⌈src.duration / cd⌉ :=
        Int.ceil_pos.mpr (div_pos hD hcd0)
      set i : ℕ := (⌈src.duration / cd⌉ - 1).toNat with hidef
      have hicast : ((i : ℤ)) = ⌈src.duration / cd⌉ - 1 := by
        rw [hidef]
        exact Int.toNat_of_nonneg (by omega)
      have hguard : (0 : ℚ) + (i : ℚ) * cd < src.duration := by
        have h1 : ((i : ℤ) : ℚ) < src.duration / cd := by
          rw [hicast]
          push_cast
          have := Int.lt_ceil.mp (show ⌈src.duration / cd⌉ - 1 < ⌈src.duration / cd⌉ by omega)
          push_cast at this
          linarith
        have h2 : ((i : ℤ) : ℚ) * cd < src.duration := by
          rw [lt_div_iff₀ hcd0] at h1
          exact h1
        push_cast at h2
        linarith
      have hend : min src.duration ((0 : ℚ) + (i : ℚ) * cd + cd) = src.duration := by
        apply min_eq_left
        have hN : ⌈src.duration / cd⌉ = (i : ℤ) + 1 := by omega
        have h1 : src.duration / cd ≤ ((⌈src.duration / cd⌉ : ℤ) : ℚ) := Int.le_ceil _
        rw [div_le_iff₀ hcd0] at h1
        rw [hN] at h1
        push_cast at h1
        linarith
      have hsome2 : (chunkLoop src cd o (le_max_left _ _) 0 0)[i]?
          = some (walkChunkAt src cd o (0 + (i : ℚ) * cd) (0 + i)) := by
        rw [chunkLoop_getElem?]
        rw [if_pos hguard]
      have hmem : walkChunkAt src cd o (0 + (i : ℚ) * cd) (0 + i)
          ∈ chunkLoop src cd o (le_max_left _ _) 0 0 := by
        exact List.mem_iff_getElem?.mpr ⟨i, hsome2⟩
      have : (walkChunkAt src cd o (0 + (i : ℚ) * cd) (0 + i)).endTime = src.duration := by
        rw [walkChunkAt]
        exact hend
      rw [← this]
      exact List.mem_map_of_mem _ hmem
    · intro e he
      rw [List.mem_map] at he
      obtain ⟨c, hc, hce⟩ := he
      rw [List.mem_iff_getElem?] at hc
      obtain ⟨j, hj⟩ := hc
      rw [chunkLoop_getElem?] at hj
      by_cases hg : (0 : ℚ) + (j : ℚ) * cd < src.duration
      · rw [if_pos hg] at hj
        have : c.endTime = min src.duration ((0 : ℚ) + (j : ℚ) * cd + cd) := by
          rw [← Option.some_inj.mp hj]
          rfl
        rw [← hce, this]
        exact min_le_left _ _
      · rw [if_neg hg] at hj
        exact absurd hj (by simp)

/-- Witness inputs for C6: one-hertz mono audio of 7 seconds (and its
zero-duration variant) with a 100-byte budget and 10-second target. -/
def c6wAudio : AudioBuffer :=
  { sampleRate := 1
    numberOfChannels := 1
    length := 7
    duration := 7
    channelData := fun _ _ => 0 }

/-- Zero-duration variant of the C6 witness audio. -/
def c6zAudio : AudioBuffer :=
  { sampleRate := 1
    numberOfChannels := 1
    length := 0
    duration := 0
    channelData := fun _ _ => 0 }

/-- Chunking options for the C6 witness. -/
def c6wOptions : ChunkingOptions :=
  { chunkDurationSeconds := 10
    overlapSeconds := none
    maxChunkSize := some 100 }

/-- Witness for C6: the 7-second audio produces a segment ending exactly at
7, all segments end by 7, and the zero-duration audio produces no segments. -/
theorem c6_tail_exact_witness :
    (7 : ℚ) ∈ ((createAudioChunks c6wAudio c6wOptions).getD []).map AudioChunk.endTime
    ∧ (createAudioChunks c6zAudio c6wOptions).getD [] = [] := by
  have hsome1 : (createAudioChunks c6wAudio c6wOptions).isSome := by
    rw [createAudioChunks_isSome_iff]
    norm_num [estimatedChunkSize, effectiveChunkDuration, maxDurationForSize,
      bytesPerSecondOf, jsNumOr, c6wAudio, c6wOptions]
  have hsome0 : (createAudioChunks c6zAudio c6wOptions).isSome := by
    rw [createAudioChunks_isSome_iff]
    norm_num [estimatedChunkSize, effectiveChunkDuration, maxDurationForSize,
      bytesPerSecondOf, jsNumOr, c6zAudio, c6wOptions]
  have h1 := (c6_tail_exact c6wAudio c6wOptions hsome1).2 (by norm_num [c6wAudio])
  have h0 := (c6_tail_exact c6zAudio c6wOptions hsome0).1 (by norm_num [c6zAudio])
  exact ⟨by simpa [c6wAudio] using h1.1, h0⟩

/-! ## Claim C3 -/

/-- C3 (amended): whenever the derived maxDurationForSize is 3 seconds, the
effective segment duration clamps up to the 5-second floor; but segmentation
then succeeds if and only if the 5-second estimate 5 * bytesPerSecond + 44
still fits the byte budget — otherwise createAudioChunks raises the config
error instead of proceeding. -/
theorem c3_five_second_floor (src : AudioBuffer) (opts : ChunkingOptions)
    (h3 : maxDurationForSize src (jsNumOr opts.maxChunkSize (20 * 1024 * 1024)) = 3) :
    effectiveChunkDuration src opts.chunkDurationSeconds
      (jsNumOr opts.maxChunkSize (20 * 1024 * 1024)) = 5
    ∧ ((createAudioChunks src opts).isSome
        ↔ 5 * (bytesPerSecondOf src : ℚ) + 44
            ≤ jsNumOr opts.maxChunkSize (20 * 1024 * 1024)) := by
  have heff : effectiveChunkDuration src opts.chunkDurationSeconds
      (jsNumOr opts.maxChunkSize (20 * 1024 * 1024)) = 5 := by
    rw [effectiveChunkDuration, h3]
    apply max_eq_left
    exact le_trans (min_le_right _ _) (by norm_num)
  refine ⟨heff, ?_⟩
  rw [createAudioChunks_isSome_iff]
  rw [estimatedChunkSize, heff]

/-- Audio for the C3 counterexample: 16 kHz mono, 30 seconds. -/
def c3cexAudio : AudioBuffer :=
  { sampleRate := 16000
    numberOfChannels := 1
    length := 480000
    duration := 30
    channelData := fun _ _ => 0 }

/-- Options for the C3 counterexample: 110000-byte budget, which makes
maxDurationForSize 3 at 16 kHz mono. -/
def c3cexOptions : ChunkingOptions :=
  { chunkDurationSeconds := 120
    overlapSeconds := none
    maxChunkSize := some 110000 }

/-- Counterexample to C3 as stated: at 16 kHz mono with a 110000-byte
budget, maxDurationForSize computes to 3 and the effective duration clamps
to 5, but segmentation does not proceed: the fail-fast check rejects the
config because the clamped 5-second chunk estimate (160044 bytes) exceeds
the budget. -/
theorem c3_clamp_counterexample :
    maxDurationForSize c3cexAudio (jsNumOr c3cexOptions.maxChunkSize (20 * 1024 * 1024)) = 3
    ∧ effectiveChunkDuration c3cexAudio c3cexOptions.chunkDurationSeconds
        (jsNumOr c3cexOptions.maxChunkSize (20 * 1024 * 1024)) = 5
    ∧ createAudioChunks c3cexAudio c3cexOptions = none := by
  refine ⟨?_, ?_, ?_⟩
  · norm_num [maxDurationForSize, bytesPerSecondOf, jsNumOr, c3cexAudio, c3cexOptions]
  · norm_num [effectiveChunkDuration, maxDurationForSize, bytesPerSecondOf,
      jsNumOr, c3cexAudio, c3cexOptions]
  · unfold createAudioChunks
    rw [if_pos]
    norm_num [estimatedChunkSize, effectiveChunkDuration, maxDurationForSize,
      bytesPerSecondOf, jsNumOr, c3cexAudio, c3cexOptions]

/-- Audio for the C3 witness: one-hertz mono, 7 seconds. -/
def c3wAudio : AudioBuffer :=
  { sampleRate := 1
    numberOfChannels := 1
    length := 7
    duration := 7
    channelData := fun _ _ => 0 }

/-- Options for the C3 witness: a 54-byte budget, which makes
maxDurationForSize 3 at one-hertz mono while the 5-second estimate
(54 bytes) still fits. -/
def c3wOptions : ChunkingOptions :=
  { chunkDurationSeconds := 10
    overlapSeconds := none
    maxChunkSize := some 54 }

/-- Witness for C3: a config whose maxDurationForSize is 3, whose effective
duration clamps to 5, and for which segmentation succeeds. -/
theorem c3_five_second_floor_witness :
    maxDurationForSize c3wAudio (jsNumOr c3wOptions.maxChunkSize (20 * 1024 * 1024)) = 3
    ∧ effectiveChunkDuration c3wAudio c3wOptions.chunkDurationSeconds
        (jsNumOr c3wOptions.maxChunkSize (20 * 1024 * 1024)) = 5
    ∧ (createAudioChunks c3wAudio c3wOptions).isSome = true := by
  have h3 : maxDurationForSize c3wAudio (jsNumOr c3wOptions.maxChunkSize
      (20 * 1024 * 1024)) = 3 := by
    norm_num [maxDurationForSize, bytesPerSecondOf, jsNumOr, c3wAudio, c3wOptions]
  have h := c3_five_second_floor c3wAudio c3wOptions h3
  refine ⟨h3, h.1, h.2.mpr ?_⟩
  norm_num [bytesPerSecondOf, jsNumOr, c3wAudio, c3wOptions]

/-! ## Encoded size lemmas -/

/-- Flattening lists of a uniform length m multiplies the length by m. -/
lemma flatMap_const_length {α : Type} (f : α → List ℕ) (m : ℕ)
    (hf : ∀ x, (f x).length = m) : ∀ l : List α, (l.flatMap f).length = l.length * m := by
  intro l
  induction l with
  | nil => simp
  | cons a t ih =>
    simp only [List.flatMap_cons, List.length_append, ih, hf, List.length_cons]
    ring

/-- The WAV header is 44 bytes long. -/
lemma wavHeader_length (b : AudioBuffer) : (wavHeader b).length = 44 := by
  simp [wavHeader, u32le, u16le]

/-- The encoded WAV blob is exactly 44 header bytes plus
frameCount * channelCount * 2 payload bytes. -/
lemma audioBufferToBlob_length (b : AudioBuffer) :
    (audioBufferToBlob b).length = 44 + b.length * b.numberOfChannels * 2 := by
  rw [audioBufferToBlob, List.length_append, wavHeader_length]
  rw [flatMap_const_length _ (b.numberOfChannels * 2)
    (fun i => by
      rw [flatMap_const_length _ 2 (fun c => by simp [u16le]) _]
      simp)]
  simp [Nat.mul_assoc]

/-- Byte-budget bound for one overlap-free chunk: with positive sample rate
and channel count, a walk cursor t at or after 0, and the fail-fast
estimate within the budget M, the encoded size of the window
[t, min duration (t + effectiveDuration)) is at most M. -/
lemma chunk_bytes_le_budget (src : AudioBuffer) (target M t : ℚ)
    (hsr : 0 < src.sampleRate) (hch : 0 < src.numberOfChannels) (ht : 0 ≤ t)
    (hest : estimatedChunkSize src target M ≤ M) :
    (44 : ℚ) + (((⌊min src.duration (t + effectiveChunkDuration src target M)
          * (src.sampleRate : ℚ)⌋
        - ⌊t * (src.sampleRate : ℚ)⌋).toNat : ℕ) : ℚ)
        * (src.numberOfChannels : ℚ) * 2 ≤ M := by
  set cd := effectiveChunkDuration src target M with hcddef
  set sr : ℚ := (src.sampleRate : ℚ) with hsrdef
  have hsr0 : (0 : ℚ) < sr := by
    rw [hsrdef]
    exact_mod_cast hsr
  have hch0 : (0 : ℚ) < (src.numberOfChannels : ℚ) := by exact_mod_cast hch
  have hcd5 : (5 : ℚ) ≤ cd := le_max_left _ _
  have hbps : ((bytesPerSecondOf src : ℕ) : ℚ) = sr * (src.numberOfChannels : ℚ) * 2 := by
    rw [bytesPerSecondOf, hsrdef]
    push_cast
    ring
  have hbps0 : (0 : ℚ) < ((bytesPerSecondOf src : ℕ) : ℚ) := by
    rw [hbps]
    positivity
  have hM0 : (0 : ℚ) < M := by
    have h1 : (0 : ℚ) < cd * ((bytesPerSecondOf src : ℕ) : ℚ) + 44 := by positivity
    have h2 : estimatedChunkSize src target M
        = cd * ((bytesPerSecondOf src : ℕ) : ℚ) + 44 := rfl
    linarith [hest, h2 ▸ hest]
  -- frame count bound: floor difference is at most ceil (cd * sr)
  set fcInt : ℤ := ⌊min src.duration (t + cd) * sr⌋ - ⌊t * sr⌋ with hfcdef
  have hstep1 : fcInt ≤ ⌈cd * sr⌉ := by
    have ha : ⌊min src.duration (t + cd) * sr⌋ ≤ ⌊(t + cd) * sr⌋ :=
      Int.floor_le_floor (mul_le_mul_of_nonneg_right (min_le_right _ _) (le_of_lt hsr0))
    have hb : ⌊(t + cd) * sr⌋ ≤ ⌊t * sr⌋ + ⌈cd * sr⌉ := by
      have h1 : (t + cd) * sr ≤ t * sr + (⌈cd * sr⌉ : ℚ) := by
        have := Int.le_ceil (cd * sr)
        nlinarith [this]
      calc ⌊(t + cd) * sr⌋ ≤ ⌊t * sr + (⌈cd * sr⌉ : ℚ)⌋ := Int.floor_le_floor h1
        _ = ⌊t * sr⌋ + ⌈cd * sr⌉ := Int.floor_add_int _ _
    omega
  have hfc : ((fcInt.toNat : ℕ) : ℚ) ≤ (⌈cd * sr⌉ : ℚ) := by
    have hceil0 : (0 : ℤ) ≤ ⌈cd * sr⌉ :=
      Int.ceil_nonneg (mul_nonneg (by linarith) (le_of_lt hsr0))
    have : (fcInt.toNat : ℤ) ≤ ⌈cd * sr⌉ := by omega
    exact_mod_cast this
  -- it suffices to bound 44 + ceil (cd * sr) * ch * 2
  have hsuffices : (44 : ℚ) + (⌈cd * sr⌉ : ℚ) * (src.numberOfChannels : ℚ) * 2 ≤ M := by
    by_cases hm : min target ((maxDurationForSize src M : ℤ) : ℚ) ≤ 5
    · -- the clamp picks the integer 5-second floor
      have hcd : cd = 5 := by
        rw [hcddef, effectiveChunkDuration]
        exact max_eq_left hm
      have hceil : (⌈cd * sr⌉ : ℚ) = 5 * sr := by
        rw [hcd, hsrdef]
        rw [show (5 : ℚ) * (src.sampleRate : ℚ) = ((5 * src.sampleRate : ℕ) : ℚ) by push_cast; ring]
        rw [Int.ceil_natCast]
        push_cast
        ring
      rw [hceil]
      have h2 : estimatedChunkSize src target M
          = cd * ((bytesPerSecondOf src : ℕ) : ℚ) + 44 := rfl
      rw [hcd] at h2
      rw [hbps] at h2
      nlinarith [hest, h2 ▸ hest]
    · -- the clamp keeps min target maxDurationForSize, which is at most
      -- maxDurationForSize, and the 95 percent margin absorbs the ceiling
      have hcd : cd = min target ((maxDurationForSize src M : ℤ) : ℚ) := by
        rw [hcddef, effectiveChunkDuration]
        exact max_eq_right (le_of_lt (lt_of_not_le hm))
      have hle : cd ≤ ((maxDurationForSize src M : ℤ) : ℚ) := hcd ▸ min_le_right _ _
      have hceil : (⌈cd * sr⌉ : ℚ) ≤ (maxDurationForSize src M : ℚ) * sr := by
        have h1 : ⌈cd * sr⌉ ≤ maxDurationForSize src M * src.sampleRate := by
          apply Int.ceil_le.mpr
          have h2 : cd * sr ≤ ((maxDurationForSize src M : ℤ) : ℚ) * sr :=
            mul_le_mul_of_nonneg_right hle (le_of_lt hsr0)
          have h3 : ((maxDurationForSize src M * (src.sampleRate : ℤ) : ℤ) : ℚ)
              = ((maxDurationForSize src M : ℤ) : ℚ) * sr := by
            push_cast
            rw [hsrdef]
          exact le_of_le_of_eq h2 h3.symm
        calc (⌈cd * sr⌉ : ℚ) ≤ ((maxDurationForSize src M * src.sampleRate : ℤ) : ℚ) := by
              exact_mod_cast h1
          _ = (maxDurationForSize src M : ℚ) * sr := by
              rw [hsrdef]
              push_cast
              ring
      have hfloor : (maxDurationForSize src M : ℚ) * ((bytesPerSecondOf src : ℕ) : ℚ)
          ≤ M * (95 / 100) - 44 := by
        have h1 : (maxDurationForSize src M : ℚ)
            ≤ (M * (95 / 100) - 44) / ((bytesPerSecondOf src : ℕ) : ℚ) := Int.floor_le _
        calc (maxDurationForSize src M : ℚ) * ((bytesPerSecondOf src : ℕ) : ℚ)
            ≤ ((M * (95 / 100) - 44) / ((bytesPerSecondOf src : ℕ) : ℚ))
              * ((bytesPerSecondOf src : ℕ) : ℚ) :=
              mul_le_mul_of_nonneg_right h1 (le_of_lt hbps0)
          _ = M * (95 / 100) - 44 := div_mul_cancel₀ _ (ne_of_gt hbps0)
      have hexp : (maxDurationForSize src M : ℚ) * sr * (src.numberOfChannels : ℚ) * 2
          = (maxDurationForSize src M : ℚ) * ((bytesPerSecondOf src : ℕ) : ℚ) := by
        rw [hbps]
        ring
      nlinarith [hceil, hfloor, hexp, hch0, hM0,
        mul_le_mul_of_nonneg_right hceil (le_of_lt hch0)]
  have hmono : (((fcInt.toNat : ℕ) : ℚ)) * (src.numberOfChannels : ℚ) * 2
      ≤ (⌈cd * sr⌉ : ℚ) * (src.numberOfChannels : ℚ) * 2 := by
    nlinarith [hfc, hch0]
  linarith

/-! ## Claim C2 -/

/-- C2 (amended): when overlapSeconds resolves to 0, every encoded chunk
blob produced under a config that passes the fail-fast check is at most
maxChunkSize bytes long; with a positive overlap, the overlap-extended
window can push a blob past the budget (see the counterexample), which the
source only soft-warns about. -/
theorem c2_blob_within_budget (src : AudioBuffer) (opts : ChunkingOptions)
    (hsr : 0 < src.sampleRate) (hch : 0 < src.numberOfChannels)
    (hov : jsNumOr opts.overlapSeconds 0 = 0)
    (hsome : (createAudioChunks src opts).isSome) :
    ∀ c ∈ (createAudioChunks src opts).getD [],
      ((audioBufferToBlob c.buffer).length : ℚ)
        ≤ jsNumOr opts.maxChunkSize (20 * 1024 * 1024) := by
  intro c hc
  have hest := (createAudioChunks_isSome_iff src opts).mp hsome
  rw [createAudioChunks_eq_some src opts hest] at hc
  rw [Option.getD_some] at hc
  rw [List.mem_iff_getElem?] at hc
  obtain ⟨j, hj⟩ := hc
  rw [chunkLoop_getElem?] at hj
  by_cases hg : (0 : ℚ) + (j : ℚ) * effectiveChunkDuration src opts.chunkDurationSeconds
      (jsNumOr opts.maxChunkSize (20 * 1024 * 1024)) < src.duration
  · rw [if_pos hg] at hj
    have hc := (Option.some_inj.mp hj).symm
    subst hc
    rw [walkChunkAt]
    simp only [mkChunkBuffer]
    rw [audioBufferToBlob_length]
    rw [hov]
    set t : ℚ := (0 : ℚ) + (j : ℚ) * effectiveChunkDuration src opts.chunkDurationSeconds
      (jsNumOr opts.maxChunkSize (20 * 1024 * 1024)) with htdef
    have ht : 0 ≤ t := by
      rw [htdef]
      have hcd5 : (5 : ℚ) ≤ effectiveChunkDuration src opts.chunkDurationSeconds
        (jsNumOr opts.maxChunkSize (20 * 1024 * 1024)) := le_max_left _ _
      positivity
    have hmax : max (0 : ℚ) (t - 0) = t := by
      rw [sub_zero]
      exact max_eq_right ht
    rw [hmax]
    have hb := chunk_bytes_le_budget src opts.chunkDurationSeconds
      (jsNumOr opts.maxChunkSize (20 * 1024 * 1024)) t hsr hch ht hest
    push_cast
    push_cast at hb
    linarith
  · rw [if_neg hg] at hj
    exact absurd hj (by simp)

/-- Audio for the C2 counterexample: 16 kHz mono, 250 seconds. -/
def c2cexAudio : AudioBuffer :=
  { sampleRate := 16000
    numberOfChannels := 1
    length := 4000000
    duration := 250
    channelData := fun _ _ => 0 }

/-- Options for the C2 counterexample: 120-second chunks, 20-second
overlap, 4050000-byte budget (which the fail-fast check accepts). -/
def c2cexOptions : ChunkingOptions :=
  { chunkDurationSeconds := 120
    overlapSeconds := some 20
    maxChunkSize := some 4050000 }

/-- Counterexample to C2 as stated: with a 20-second overlap the config
passes the fail-fast check, yet segment 1 covers [100, 240) and encodes to
4480044 bytes, exceeding the 4050000-byte budget. -/
theorem c2_overlap_counterexample :
    (((createAudioChunks c2cexAudio c2cexOptions).getD [])[1]?).map
        (fun c => (audioBufferToBlob c.buffer).length) = some 4480044
    ∧ jsNumOr c2cexOptions.maxChunkSize (20 * 1024 * 1024) = 4050000
    ∧ ¬ (((4480044 : ℕ) : ℚ) ≤ 4050000) := by
  refine ⟨?_, by norm_num [jsNumOr, c2cexOptions], by norm_num⟩
  have hest : estimatedChunkSize c2cexAudio c2cexOptions.chunkDurationSeconds
      (jsNumOr c2cexOptions.maxChunkSize (20 * 1024 * 1024))
      ≤ jsNumOr c2cexOptions.maxChunkSize (20 * 1024 * 1024) := by
    norm_num [estimatedChunkSize, effectiveChunkDuration, maxDurationForSize,
      bytesPerSecondOf, jsNumOr, c2cexAudio, c2cexOptions]
  rw [createAudioChunks_eq_some c2cexAudio c2cexOptions hest]
  rw [Option.getD_some]
  rw [chunkLoop_getElem?]
  rw [if_pos (by norm_num [effectiveChunkDuration, maxDurationForSize,
    bytesPerSecondOf, jsNumOr, c2cexAudio, c2cexOptions])]
  simp only [Option.map_some']
  rw [walkChunkAt]
  simp only [mkChunkBuffer]
  rw [audioBufferToBlob_length]
  norm_num [effectiveChunkDuration, maxDurationForSize, bytesPerSecondOf,
    jsNumOr, c2cexAudio, c2cexOptions]
  rfl

/-- Audio for the C2 witness: one-hertz mono, 7 seconds. -/
def c2wAudio : AudioBuffer :=
  { sampleRate := 1
    numberOfChannels := 1
    length := 7
    duration := 7
    channelData := fun _ _ => 0 }

/-- Options for the C2 witness: 10-second chunks, no overlap, 100 bytes. -/
def c2wOptions : ChunkingOptions :=
  { chunkDurationSeconds := 10
    overlapSeconds := none
    maxChunkSize := some 100 }

/-- Witness for C2: the single chunk of the witness input encodes to 58
bytes, within the 100-byte budget. -/
theorem c2_blob_within_budget_witness :
    (audioBufferToBlob (walkChunkAt c2wAudio 10 0 0 0).buffer).length = 58
    ∧ ((audioBufferToBlob (walkChunkAt c2wAudio 10 0 0 0).buffer).length : ℚ)
        ≤ jsNumOr c2wOptions.maxChunkSize (20 * 1024 * 1024) := by
  have hest : estimatedChunkSize c2wAudio c2wOptions.chunkDurationSeconds
      (jsNumOr c2wOptions.maxChunkSize (20 * 1024 * 1024))
      ≤ jsNumOr c2wOptions.maxChunkSize (20 * 1024 * 1024) := by
    norm_num [estimatedChunkSize, effectiveChunkDuration, maxDurationForSize,
      bytesPerSecondOf, jsNumOr, c2wAudio, c2wOptions]
  have hcd : effectiveChunkDuration c2wAudio c2wOptions.chunkDurationSeconds
      (jsNumOr c2wOptions.maxChunkSize (20 * 1024 * 1024)) = 10 := by
    norm_num [effectiveChunkDuration, maxDurationForSize, bytesPerSecondOf,
      jsNumOr, c2wAudio, c2wOptions]
  have hsome : (createAudioChunks c2wAudio c2wOptions).isSome := by
    rw [createAudioChunks_isSome_iff]
    exact hest
  have hmem : walkChunkAt c2wAudio 10 0 0 0
      ∈ (createAudioChunks c2wAudio c2wOptions).getD [] := by
    rw [createAudioChunks_eq_some c2wAudio c2wOptions hest]
    rw [Option.getD_some]
    apply List.mem_iff_getElem?.mpr
    refine ⟨0, ?_⟩
    rw [chunkLoop_getElem?]
    rw [if_pos (by rw [hcd]; norm_num [c2wAudio])]
    rw [hcd]
    norm_num [jsNumOr, c2wOptions]
  have hb := c2_blob_within_budget c2wAudio c2wOptions
    (by norm_num [c2wAudio]) (by norm_num [c2wAudio])
    (by norm_num [jsNumOr, c2wOptions]) hsome
    (walkChunkAt c2wAudio 10 0 0 0) hmem
  have hlen : (audioBufferToBlob (walkChunkAt c2wAudio 10 0 0 0).buffer).length = 58 := by
    rw [walkChunkAt]
    simp only [mkChunkBuffer]
    rw [audioBufferToBlob_length]
    norm_num [c2wAudio]
    rfl
  exact ⟨hlen, hb⟩

/-! ## Byte-position lemmas for the encoder -/

/-- Indexing into a flattened list of uniform-length blocks: position
q * m + r with r < m lands in block q at offset r. -/
lemma flatMap_getElem_uniform {α β : Type} (f : α → List β) (m : ℕ)
    (hm : ∀ x, (f x).length = m) :
    ∀ (l : List α) (q r : ℕ), r < m →
      (l.flatMap f)[q * m + r]? = (l[q]?).bind fun x => (f x)[r]? := by
  intro l
  induction l with
  | nil => simp
  | cons a t ih =>
    intro q r hr
    cases q with
    | zero =>
      simp only [List.flatMap_cons, Nat.zero_mul, Nat.zero_add]
      rw [List.getElem?_append, if_pos (by rw [hm a]; exact hr)]
      simp
    | succ q =>
      simp only [List.flatMap_cons]
      rw [List.getElem?_append_right (by rw [hm a]; nlinarith)]
      rw [hm a]
      have e : (q + 1) * m + r - m = q * m + r := by
        have : (q + 1) * m = q * m + m := by ring
        omega
      rw [e, ih q r hr]
      simp

/-- Byte k of the 16-bit sample write for frame i, channel c sits at offset
44 + (i * channelCount + c) * 2 + k of the encoded blob. -/
lemma audioBufferToBlob_sample_byte (b : AudioBuffer) (i c k : ℕ)
    (hi : i < b.length) (hc : c < b.numberOfChannels) (hk : k < 2) :
    (audioBufferToBlob b)[44 + (i * b.numberOfChannels + c) * 2 + k]?
      = (u16le (sampleToInt16Bits (b.channelData c i)))[k]? := by
  rw [audioBufferToBlob]
  rw [List.getElem?_append_right (by rw [wavHeader_length]; omega)]
  rw [wavHeader_length]
  have e : 44 + (i * b.numberOfChannels + c) * 2 + k - 44
      = i * (b.numberOfChannels * 2) + (c * 2 + k) := by
    have : (i * b.numberOfChannels + c) * 2 = i * (b.numberOfChannels * 2) + c * 2 := by
      ring
    omega
  rw [e]
  rw [flatMap_getElem_uniform _ (b.numberOfChannels * 2)
    (fun x => by
      rw [flatMap_const_length _ 2 (fun y => by simp [u16le])]
      simp)
    _ _ _ (by omega)]
  rw [List.getElem?_range hi]
  simp only [Option.some_bind]
  rw [flatMap_getElem_uniform _ 2 (fun y => by simp [u16le]) _ _ _ hk]
  rw [List.getElem?_range hc]
  simp

/-! ## Claim C7 -/

/-- C7 (amended): the encoded blob is a 44-byte header followed by the
frames in order, channels interleaved within each frame, each sample
written as the two little-endian bytes of clamp(sample, -1, 1) * 32767
truncated toward zero (not rounded to nearest) and reduced mod 2^16. -/
theorem c7_wav_layout (b : AudioBuffer) (i c : ℕ)
    (hi : i < b.length) (hc : c < b.numberOfChannels) :
    (audioBufferToBlob b).length = 44 + b.length * b.numberOfChannels * 2
    ∧ (audioBufferToBlob b).take 44 = wavHeader b
    ∧ (wavHeader b).length = 44
    ∧ (audioBufferToBlob b)[44 + (i * b.numberOfChannels + c) * 2]?
        = some (sampleToInt16Bits (b.channelData c i) % 256)
    ∧ (audioBufferToBlob b)[44 + (i * b.numberOfChannels + c) * 2 + 1]?
        = some (sampleToInt16Bits (b.channelData c i) / 256 % 256) := by
  refine ⟨audioBufferToBlob_length b, ?_, wavHeader_length b, ?_, ?_⟩
  · rw [audioBufferToBlob]
    rw [show (44 : ℕ) = (wavHeader b).length from (wavHeader_length b).symm]
    exact List.take_left _ _
  · have h := audioBufferToBlob_sample_byte b i c 0 hi hc (by omega)
    rw [Nat.add_zero] at h
    rw [h]
    simp [u16le]
  · have h := audioBufferToBlob_sample_byte b i c 1 hi hc (by omega)
    rw [h]
    simp [u16le]

/-- Single-frame mono buffer holding the sample 7/10, on which truncation
and round-to-nearest differ. -/
def c7cexBuffer : AudioBuffer :=
  { sampleRate := 8000
    numberOfChannels := 1
    length := 1
    duration := 1 / 8000
    channelData := fun _ _ => 7 / 10 }

/-- Modelled from the spec: the sample conversion the spec describes for
the encoder, clamp(sample, -1, 1) * 32767 rounded toward nearest (ties
up), reduced mod 2^16; stated only to compare with the truncation the code
performs. -/
def roundNearestInt16Bits (x : ℚ) : ℕ :=
  ((⌊clampSample x * 32767 + 1 / 2⌋) % 65536).toNat

/-- The clamp is the identity on 7/10. -/
lemma clampSample_seven_tenths : clampSample (7 / 10) = 7 / 10 := by
  rw [clampSample]
  rw [min_eq_right (by norm_num), max_eq_right (by norm_num)]

/-- Counterexample to C7 as stated: the sample 7/10 scales to 22936.9,
which the code truncates to 22936 (low byte 152) while rounding toward
nearest would give 22937 (low byte 153); the blob byte at offset 44
is 152. -/
theorem c7_rounding_counterexample :
    sampleToInt16Bits (7 / 10) = 22936
    ∧ roundNearestInt16Bits (7 / 10) = 22937
    ∧ (audioBufferToBlob c7cexBuffer)[44]? = some 152
    ∧ ¬ ((152 : ℕ) = roundNearestInt16Bits (7 / 10) % 256) := by
  have hs : sampleToInt16Bits (7 / 10) = 22936 := by
    rw [sampleToInt16Bits, clampSample_seven_tenths, jsTrunc]
    rw [if_pos (by norm_num)]
    norm_num
    rfl
  have hr : roundNearestInt16Bits (7 / 10) = 22937 := by
    rw [roundNearestInt16Bits, clampSample_seven_tenths]
    norm_num
    rfl
  refine ⟨hs, hr, ?_, by rw [hr]; norm_num⟩
  have h := audioBufferToBlob_sample_byte c7cexBuffer 0 0 0
    (by norm_num [c7cexBuffer]) (by norm_num [c7cexBuffer]) (by omega)
  have e : 44 + (0 * c7cexBuffer.numberOfChannels + 0) * 2 + 0 = 44 := by
    norm_num
  rw [e] at h
  rw [h]
  have hdata : c7cexBuffer.channelData 0 0 = 7 / 10 := rfl
  rw [hdata, hs]
  simp [u16le]

/-- Witness for C7 at the single-frame buffer: the blob is 46 bytes, and
the two payload bytes are the little-endian encoding of the truncated
sample 22936, namely 152 and 89. -/
theorem c7_wav_layout_witness :
    (audioBufferToBlob c7cexBuffer).length = 46
    ∧ (audioBufferToBlob c7cexBuffer)[44]? = some 152
    ∧ (audioBufferToBlob c7cexBuffer)[45]? = some 89 := by
  have h := c7_wav_layout c7cexBuffer 0 0
    (by norm_num [c7cexBuffer]) (by norm_num [c7cexBuffer])
  have hs : sampleToInt16Bits (c7cexBuffer.channelData 0 0) = 22936 := by
    have hdata : c7cexBuffer.channelData 0 0 = 7 / 10 := rfl
    rw [hdata, sampleToInt16Bits, clampSample_seven_tenths, jsTrunc]
    rw [if_pos (by norm_num)]
    norm_num
    rfl
  refine ⟨?_, ?_, ?_⟩
  · rw [h.1]
    norm_num [c7cexBuffer]
  · have h4 := h.2.2.2.1
    rw [hs] at h4
    have e : 44 + (0 * c7cexBuffer.numberOfChannels + 0) * 2 = 44 := by norm_num
    rw [e] at h4
    rw [h4]
  · have h5 := h.2.2.2.2
    rw [hs] at h5
    have e : 44 + (0 * c7cexBuffer.numberOfChannels + 0) * 2 + 1 = 45 := by norm_num
    rw [e] at h5
    rw [h5]

/-! ## Claim C4 -/

/-- C4 (amended): the retry loop makes at most 3 attempts (2 retries),
pauses a fixed 2000 ms between consecutive attempts, returns the result of
the last attempt made, retries after every failed attempt regardless of
the error kind (auth and payload-size failures are not distinguished:
the loop inspects only truthiness of the error field), and when the final
result still carries an error, all 3 attempts were made. -/
theorem c4_retry_policy (attempt : ℕ → TranscriptionResult) :
    (runWithRetries attempt).2.1 ≤ 3
    ∧ (runWithRetries attempt).1 = attempt ((runWithRetries attempt).2.1 - 1)
    ∧ (runWithRetries attempt).2.2
        = List.replicate ((runWithRetries attempt).2.1 - 1) 2000
    ∧ (∀ k, k < (runWithRetries attempt).2.1 - 1 → jsTruthy (attempt k).error = true)
    ∧ (jsTruthy ((runWithRetries attempt).1).error = true
        → (runWithRetries attempt).2.1 = 3)
    ∧ (∀ chunk : AudioChunk, jsTruthy ((runWithRetries attempt).1).error = true
        → (processChunk attempt chunk).error = ((runWithRetries attempt).1).error) := by
  have hproc : ∀ chunk : AudioChunk, jsTruthy ((runWithRetries attempt).1).error = true
      → (processChunk attempt chunk).error = ((runWithRetries attempt).1).error := by
    intro chunk h
    rw [processChunk]
    simp only [h, if_true]
  by_cases h0 : jsTruthy (attempt 0).error = true
  · by_cases h1 : jsTruthy (attempt 1).error = true
    · have hrun : runWithRetries attempt = (attempt 2, 3, [2000, 2000]) := by
        rw [runWithRetries]
        show retryAux attempt 0 (1 + 1) = _
        rw [retryAux, if_pos h0, retryAux, if_pos h1, retryAux]
      refine ⟨?_, ?_, ?_, ?_, ?_, hproc⟩
      · rw [hrun]
      · rw [hrun]
        rfl
      · rw [hrun]
        rfl
      · rw [hrun]
        intro k hk
        have hk2 : k < 2 := hk
        match k, hk2 with
        | 0, _ => exact h0
        | 1, _ => exact h1
      · intro _
        rw [hrun]
    · have hrun : runWithRetries attempt = (attempt 1, 2, [2000]) := by
        rw [runWithRetries]
        show retryAux attempt 0 (1 + 1) = _
        rw [retryAux, if_pos h0, retryAux, if_neg h1]
      refine ⟨?_, ?_, ?_, ?_, ?_, hproc⟩
      · rw [hrun]
        exact Nat.le_succ_of_le (Nat.le_refl 2)
      · rw [hrun]
        rfl
      · rw [hrun]
        rfl
      · rw [hrun]
        intro k hk
        have hk2 : k < 1 := hk
        match k, hk2 with
        | 0, _ => exact h0
      · intro hc
        rw [hrun] at hc
        exact absurd hc h1
  · have hrun : runWithRetries attempt = (attempt 0, 1, []) := by
      rw [runWithRetries]
      show retryAux attempt 0 (1 + 1) = _
      rw [retryAux, if_neg h0]
    refine ⟨?_, ?_, ?_, ?_, ?_, hproc⟩
    · rw [hrun]
      show (1 : ℕ) ≤ 3
      omega
    · rw [hrun]
      rfl
    · rw [hrun]
      rfl
    · rw [hrun]
      intro k hk
      have hk2 : k < 0 := hk
      omega
    · intro hc
      rw [hrun] at hc
      exact absurd hc h0

/-- An always-failing auth-style backend answer. -/
def c4authAttempt : ℕ → TranscriptionResult :=
  fun _ => { text := "", error := some "AuthError: invalid API key" }

/-- Counterexample to C4 as stated: on an authentication failure the loop
does not abort; it still makes all 3 attempts with two 2-second pauses,
because the code never inspects the error kind. -/
theorem c4_auth_retry_counterexample :
    (runWithRetries c4authAttempt).2.1 = 3
    ∧ (runWithRetries c4authAttempt).2.2 = [2000, 2000]
    ∧ ¬ ((3 : ℕ) = 1) := by
  refine ⟨rfl, rfl, by omega⟩

/-- A backend answer failing transiently twice and succeeding on the third
attempt. -/
def c4wAttempt : ℕ → TranscriptionResult :=
  fun k => if k < 2 then { text := "", error := some "Transient: socket hang up" }
    else { text := "ok" }

/-- Witness for C4: with two transient failures the loop pauses 2000 ms
twice and returns the third attempt's result. -/
theorem c4_retry_policy_witness :
    jsTruthy (c4wAttempt 0).error = true
    ∧ (runWithRetries c4wAttempt).2.2 = [2000, 2000]
    ∧ (runWithRetries c4wAttempt).1 = c4wAttempt 2 := by
  have h := c4_retry_policy c4wAttempt
  have hn : (runWithRetries c4wAttempt).2.1 = 3 := rfl
  refine ⟨h.2.2.2.1 0 (by rw [hn]; omega), ?_, ?_⟩
  · rw [h.2.2.1, hn]
    rfl
  · rw [h.2.1, hn]

/-! ## Claim C10 -/

/-- C10: with an empty chunk list the chunked-transcription entry point
submits nothing and returns the error outcome: empty fullText, empty
chunks, zero totalDuration, and the fixed no-chunks error message. -/
theorem c10_empty_chunks_error (transcribe : ℕ → ℕ → TranscriptionResult) :
    transcribeAudioInChunks transcribe []
      = { fullText := ""
          chunks := []
          totalDuration := 0
          error := some "No chunks were created from the audio file" } := rfl

/-! ## Claim C5 helper lemmas -/

/-- The recorded chunkIndex is always the chunk's own index. -/
lemma processChunk_chunkIndex (attempt : ℕ → TranscriptionResult) (c : AudioChunk) :
    (processChunk attempt c).chunkIndex = c.index := by
  rw [processChunk]
  by_cases h : jsTruthy ((runWithRetries attempt).1).error
  · simp [h]
  · simp [h]

/-- A left fold of max starts no lower than its initial accumulator. -/
lemma foldl_max_init_le : ∀ (l : List ℚ) (a : ℚ), a ≤ l.foldl max a := by
  intro l
  induction l with
  | nil => intro a; exact le_refl a
  | cons x t ih =>
    intro a
    exact le_trans (le_max_left a x) (ih (max a x))

/-- A left fold of max dominates every list element. -/
lemma foldl_max_mem_le : ∀ (l : List ℚ) (a x : ℚ), x ∈ l → x ≤ l.foldl max a := by
  intro l
  induction l with
  | nil => intro a x hx; exact absurd hx (List.not_mem_nil x)
  | cons y t ih =>
    intro a x hx
    rcases List.mem_cons.mp hx with h | h
    · subst h
      exact le_trans (le_max_right a x) (foldl_max_init_le t (max a x))
    · exact ih (max a y) x h

/-- A left fold of max is the accumulator or one of the elements. -/
lemma foldl_max_attained : ∀ (l : List ℚ) (a : ℚ),
    l.foldl max a = a ∨ l.foldl max a ∈ l := by
  intro l
  induction l with
  | nil => intro a; exact Or.inl rfl
  | cons x t ih =>
    intro a
    rcases ih (max a x) with h | h
    · rcases max_choice a x with hm | hm
      · exact Or.inl (by rw [List.foldl_cons, h, hm])
      · refine Or.inr ?_
        rw [List.foldl_cons, h, hm]
        exact List.mem_cons_self x t
    · exact Or.inr (List.mem_cons_of_mem x h)

/-- Math.max over a non-empty list: the value is attained and bounds all
elements. -/
lemma jsMaxList_spec (l : List ℚ) (hne : l ≠ []) :
    jsMaxList l ∈ l ∧ ∀ x ∈ l, x ≤ jsMaxList l := by
  cases l with
  | nil => exact absurd rfl hne
  | cons a t =>
    constructor
    · rcases foldl_max_attained t a with h | h
      · rw [jsMaxList, h]
        exact List.mem_cons_self a t
      · exact List.mem_cons_of_mem a h
    · intro x hx
      rcases List.mem_cons.mp hx with h | h
      · subst h
        exact foldl_max_init_le t x
      · exact foldl_max_mem_le t a x h

/-- Unfolding of the orchestration run on a non-empty chunk list. -/
lemma transcribeAudioInChunks_eq (transcribe : ℕ → ℕ → TranscriptionResult)
    (chunks : List AudioChunk) (hne : chunks ≠ []) :
    transcribeAudioInChunks transcribe chunks
      = { fullText := String.intercalate " "
            (((((chunks.map (fun c => processChunk (transcribe c.index) c)).filter
                  (fun r => !jsTruthy r.error)).mergeSort
                (fun a b => a.chunkIndex ≤ b.chunkIndex)).map
              (fun r => jsTrim r.text)).filter (fun t => t.length > 0))
          chunks := chunks.map (fun c => processChunk (transcribe c.index) c)
          totalDuration := jsMaxList (chunks.map AudioChunk.endTime)
          error := if (chunks.map (fun c => processChunk (transcribe c.index) c)).any
              (fun r => jsTruthy r.error) then some "Some chunks failed to transcribe"
            else none } := by
  rw [transcribeAudioInChunks]
  rw [if_neg (by simpa [List.length_eq_zero] using hne)]

/-! ## Claim C5 -/

/-- C5: a run over a non-empty chunk list (indices equal to positions, as
the chunker produces them) yields exactly one SegmentResult per chunk, in
index order; fullText is the space-join of the trimmed texts of the
non-errored segments that remain non-empty after trimming, in index order;
totalDuration is the maximum chunk endTime; and the aggregate error is set
iff at least one segment result carries an error. -/
theorem c5_merge_outcome (transcribe : ℕ → ℕ → TranscriptionResult)
    (chunks : List AudioChunk) (hne : chunks ≠ [])
    (hidx : ∀ (i : ℕ) (h : i < chunks.length), (chunks.get ⟨i, h⟩).index = i) :
    (transcribeAudioInChunks transcribe chunks).chunks.length = chunks.length
    ∧ (∀ (i : ℕ) (h : i < (transcribeAudioInChunks transcribe chunks).chunks.length),
        ((transcribeAudioInChunks transcribe chunks).chunks.get ⟨i, h⟩).chunkIndex = i)
    ∧ (transcribeAudioInChunks transcribe chunks).fullText
        = String.intercalate " "
          ((((transcribeAudioInChunks transcribe chunks).chunks.filter
              (fun r => !jsTruthy r.error)).map (fun r => jsTrim r.text)).filter
            (fun t => t.length > 0))
    ∧ (transcribeAudioInChunks transcribe chunks).totalDuration
        ∈ chunks.map AudioChunk.endTime
    ∧ (∀ e ∈ chunks.map AudioChunk.endTime,
        e ≤ (transcribeAudioInChunks transcribe chunks).totalDuration)
    ∧ ((transcribeAudioInChunks transcribe chunks).error ≠ none
        ↔ ∃ r ∈ (transcribeAudioInChunks transcribe chunks).chunks,
            jsTruthy r.error = true) := by
  have hmapne : chunks.map AudioChunk.endTime ≠ [] := by
    simpa using hne
  have hmax := jsMaxList_spec (chunks.map AudioChunk.endTime) hmapne
  rw [transcribeAudioInChunks_eq transcribe chunks hne]
  dsimp only
  have hPW : List.Pairwise
      (fun a b => (fun a b => decide (a.chunkIndex ≤ b.chunkIndex)) a b = true)
      (chunks.map (fun c => processChunk (transcribe c.index) c)) := by
    apply List.pairwise_iff_getElem.mpr
    intro i j hi hj hij
    simp only [List.getElem_map, processChunk_chunkIndex]
    have h1 : i < chunks.length := by simpa using hi
    have h2 : j < chunks.length := by simpa using hj
    have e1 := hidx i h1
    have e2 := hidx j h2
    rw [List.get_eq_getElem] at e1 e2
    rw [e1, e2]
    simp [Nat.le_of_lt hij]
  have hsorted : ((chunks.map (fun c => processChunk (transcribe c.index) c)).filter
        (fun r => !jsTruthy r.error)).mergeSort (fun a b => a.chunkIndex ≤ b.chunkIndex)
      = (chunks.map (fun c => processChunk (transcribe c.index) c)).filter
        (fun r => !jsTruthy r.error) :=
    List.mergeSort_of_sorted
      (List.Pairwise.sublist (List.filter_sublist _) hPW)
  refine ⟨by simp, ?_, ?_, hmax.1, hmax.2, ?_⟩
  · intro i h
    have h1 : i < chunks.length := by simpa using h
    have e1 := hidx i h1
    rw [List.get_eq_getElem] at e1 ⊢
    simp only [List.getElem_map, processChunk_chunkIndex]
    exact e1
  · rw [hsorted]
  · by_cases hA : (chunks.map (fun c => processChunk (transcribe c.index) c)).any
        (fun r => jsTruthy r.error) = true
    · simp only [hA, if_true]
      constructor
      · intro _
        exact List.any_eq_true.mp hA
      · intro _
        exact Option.some_ne_none _
    · simp only [hA, if_false]
      constructor
      · intro hc
        exact absurd rfl hc
      · intro hex
        exact absurd (List.any_eq_true.mpr hex) hA

/-- A placeholder buffer for orchestration-level witnesses (its contents
are never read by the orchestration code). -/
def dummyBuffer : AudioBuffer :=
  { sampleRate := 16000
    numberOfChannels := 1
    length := 0
    duration := 0
    channelData := fun _ _ => 0 }

/-- Four chunks of 30 seconds each, indices 0..3, for the C5 scenario. -/
def c5wChunks : List AudioChunk :=
  [ { buffer := dummyBuffer, startTime := 0, endTime := 30, index := 0 }
  , { buffer := dummyBuffer, startTime := 30, endTime := 60, index := 1 }
  , { buffer := dummyBuffer, startTime := 60, endTime := 90, index := 2 }
  , { buffer := dummyBuffer, startTime := 90, endTime := 120, index := 3 } ]

/-- Backend oracle for the C5 scenario: chunk 2 fails every attempt with a
transient error, the others succeed with fixed texts. -/
def c5wOracle : ℕ → ℕ → TranscriptionResult :=
  fun ci _ =>
    if ci = 2 then { text := "", error := some "Transient: service unavailable" }
    else if ci = 0 then { text := " alpha " }
    else if ci = 1 then { text := "beta" }
    else { text := " delta" }

/-- Witness for C5 at the 4-chunk scenario with chunk 2 exhausting its
retries: fullText joins the trimmed texts of chunks 0, 1 and 3; the result
still has 4 segment entries; and the aggregate error is set. -/
theorem c5_merge_outcome_witness :
    (transcribeAudioInChunks c5wOracle c5wChunks).fullText = "alpha beta delta"
    ∧ (transcribeAudioInChunks c5wOracle c5wChunks).chunks.length = 4
    ∧ (transcribeAudioInChunks c5wOracle c5wChunks).error ≠ none := by
  have hne : c5wChunks ≠ [] := by
    rw [c5wChunks]
    exact List.cons_ne_nil _ _
  have hidx : ∀ (i : ℕ) (h : i < c5wChunks.length), (c5wChunks.get ⟨i, h⟩).index = i := by
    intro i h
    have h4 : i < 4 := by simpa [c5wChunks] using h
    match i, h4 with
    | 0, _ => rfl
    | 1, _ => rfl
    | 2, _ => rfl
    | 3, _ => rfl
  have h := c5_merge_outcome c5wOracle c5wChunks hne hidx
  refine ⟨?_, ?_, ?_⟩
  · rw [h.2.2.1]
    decide
  · rw [h.1]
    rfl
  · rw [h.2.2.2.2.2]
    decide

/-! ## Claim C8 helper lemmas -/

/-- Folding string append distributes over a prefixed accumulator. -/
lemma foldl_append_acc (l : List String) : ∀ (a b : String),
    l.foldl (· ++ ·) (a ++ b) = a ++ l.foldl (· ++ ·) b := by
  induction l with
  | nil => intro a b; rfl
  | cons x xs ih =>
    intro a b
    rw [List.foldl_cons, List.foldl_cons, String.append_assoc, ih]

/-- String.join of a cons is the head appended to the join of the tail. -/
lemma string_join_cons (s : String) (l : List String) :
    String.join (s :: l) = s ++ String.join l := by
  show (s :: l).foldl (· ++ ·) "" = s ++ l.foldl (· ++ ·) ""
  rw [List.foldl_cons, String.empty_append]
  rw [show s = s ++ "" from (String.append_empty s).symm]
  rw [foldl_append_acc]
  rw [String.append_empty]

/-- The SRT loop renumbers: starting the counter at n, the output is the
kept chunks in order, numbered n, n+1, n+2, ... consecutively. -/
lemma srtAux_eq_join : ∀ (rs : List ChunkTranscriptionResult) (n : ℕ),
    srtAux rs n = String.join (((rs.filter keepForSubtitles).zip
      (List.range' n (rs.filter keepForSubtitles).length)).map
        (fun p => srtEntry p.2 p.1)) := by
  intro rs
  induction rs with
  | nil => intro n; rfl
  | cons r rest ih =>
    intro n
    rw [srtAux]
    by_cases hk : keepForSubtitles r = true
    · rw [if_pos hk, List.filter_cons_of_pos hk]
      rw [List.length_cons, List.range'_succ, List.zip_cons_cons, List.map_cons]
      rw [string_join_cons]
      rw [ih (n + 1)]
    · rw [if_neg hk, List.filter_cons_of_neg hk]
      exact ih n

/-! ## Claim C8 -/

/-- C8: the SRT rendering contains exactly the non-errored chunks whose
trimmed text is non-empty, in order, renumbered consecutively from 1
(ignoring the original chunkIndex); in particular for three chunks with the
middle one errored, the output consists of cues numbered 1 and 2 only. -/
theorem c8_srt_renumbering (result : ChunkedTranscriptionResult)
    (c0 c1 c2 : ChunkTranscriptionResult)
    (h0 : keepForSubtitles c0 = true) (h1 : keepForSubtitles c1 = false)
    (h2 : keepForSubtitles c2 = true) :
    generateSRTContent result
      = String.join (((result.chunks.filter keepForSubtitles).zip
          (List.range' 1 (result.chunks.filter keepForSubtitles).length)).map
            (fun p => srtEntry p.2 p.1))
    ∧ generateSRTContent
        { fullText := "", chunks := [c0, c1, c2], totalDuration := 0, error := none }
        = srtEntry 1 c0 ++ srtEntry 2 c2 := by
  constructor
  · exact srtAux_eq_join result.chunks 1
  · show srtAux [c0, c1, c2] 1 = _
    rw [srtAux, if_pos h0]
    rw [srtAux, if_neg (by simp [h1])]
    rw [srtAux, if_pos h2]
    rw [srtAux]
    rw [String.append_empty]

/-- Kept chunk 0 of the C8 witness. -/
def c8w0 : ChunkTranscriptionResult :=
  { chunkIndex := 0, startTime := 0, endTime := 30, text := "first words", error := none }

/-- Errored chunk 1 of the C8 witness. -/
def c8w1 : ChunkTranscriptionResult :=
  { chunkIndex := 1, startTime := 30, endTime := 60, text := ""
    error := some "Transient: timeout" }

/-- Kept chunk 2 of the C8 witness. -/
def c8w2 : ChunkTranscriptionResult :=
  { chunkIndex := 2, startTime := 60, endTime := 90, text := "last words", error := none }

/-- Witness for C8: with chunk 1 errored, the SRT content is cue 1 for
chunk 0 followed by cue 2 for chunk 2 — no cue 3 and no gap. -/
theorem c8_srt_renumbering_witness :
    generateSRTContent
      { fullText := "", chunks := [c8w0, c8w1, c8w2], totalDuration := 0, error := none }
      = srtEntry 1 c8w0 ++ srtEntry 2 c8w2 :=
  (c8_srt_renumbering { fullText := "", chunks := [], totalDuration := 0, error := none }
    c8w0 c8w1 c8w2 (by decide) (by decide) (by decide)).2

/-! ## Claim C9 -/

/-- C9: formatting 3661.75 seconds gives SRT 01:01:01,750 and VTT
01:01:01.750, and formatting 65.5 seconds gives VTT 01:05.500; in general
the VTT format omits the hours segment exactly when the hour count is
zero, while the SRT format always includes it. -/
theorem c9_time_formats :
    formatSRTTime (3661.75 : ℚ) = "01:01:01,750"
    ∧ formatVTTTime (3661.75 : ℚ) = "01:01:01.750"
    ∧ formatVTTTime (65.5 : ℚ) = "01:05.500"
    ∧ (∀ s : ℚ, 0 ≤ s →
        (⌊s / 3600⌋ ≤ 0 → formatVTTTime s
            = padLeft (toString ⌊s / 60⌋) 2 '0' ++ ":"
              ++ padLeft (jsToFixed3 (jsMod s 60)) 6 '0')
        ∧ (0 < ⌊s / 3600⌋ → formatVTTTime s
            = padLeft (toString ⌊s / 3600⌋) 2 '0' ++ ":"
              ++ padLeft (toString ⌊jsMod s 3600 / 60⌋) 2 '0' ++ ":"
              ++ padLeft (jsToFixed3 (jsMod s 60)) 6 '0')) := by
  have hm3600 : jsMod (3661.75 : ℚ) 3600 = 247 / 4 := by
    rw [jsMod, jsTrunc, if_pos (by norm_num)]
    norm_num
  have hm60 : jsMod (3661.75 : ℚ) 60 = 7 / 4 := by
    rw [jsMod, jsTrunc, if_pos (by norm_num)]
    norm_num
  have hm1 : jsMod (3661.75 : ℚ) 1 = 3 / 4 := by
    rw [jsMod, jsTrunc, if_pos (by norm_num)]
    norm_num
  have hfix74 : jsToFixed3 (7 / 4 : ℚ) = "1.750" := by
    rw [jsToFixed3, if_neg (by norm_num)]
    rw [show (⌊(7 / 4 : ℚ) * 1000 + 1 / 2⌋) = 1750 by norm_num]
    rfl
  have wm3600 : jsMod (65.5 : ℚ) 3600 = 131 / 2 := by
    rw [jsMod, jsTrunc, if_pos (by norm_num)]
    norm_num
  have wm60 : jsMod (65.5 : ℚ) 60 = 11 / 2 := by
    rw [jsMod, jsTrunc, if_pos (by norm_num)]
    norm_num
  have wfix : jsToFixed3 (11 / 2 : ℚ) = "5.500" := by
    rw [jsToFixed3, if_neg (by norm_num)]
    rw [show (⌊(11 / 2 : ℚ) * 1000 + 1 / 2⌋) = 5500 by norm_num]
    rfl
  refine ⟨?_, ?_, ?_, ?_⟩
  · simp only [formatSRTTime]
    rw [hm3600, hm60, hm1]
    rw [show (⌊(3661.75 : ℚ) / 3600⌋) = 1 by norm_num]
    rw [show (⌊(247 / 4 : ℚ) / 60⌋) = 1 by norm_num]
    rw [show (⌊(7 / 4 : ℚ)⌋) = 1 by norm_num]
    rw [show (⌊(3 / 4 : ℚ) * 1000⌋) = 750 by norm_num]
    rfl
  · simp only [formatVTTTime]
    rw [hm3600, hm60]
    rw [show (⌊(3661.75 : ℚ) / 3600⌋) = 1 by norm_num]
    rw [show (⌊(247 / 4 : ℚ) / 60⌋) = 1 by norm_num]
    rw [if_pos (by norm_num)]
    rw [hfix74]
    rfl
  · simp only [formatVTTTime]
    rw [wm3600, wm60]
    rw [show (⌊(65.5 : ℚ) / 3600⌋) = 0 by norm_num]
    rw [show (⌊(131 / 2 : ℚ) / 60⌋) = 1 by norm_num]
    rw [if_neg (by norm_num)]
    rw [wfix]
    rfl
  · intro s hs0
    constructor
    · intro hle
      have hz : ⌊s / 3600⌋ = 0 :=
        le_antisymm hle (Int.floor_nonneg.mpr (div_nonneg hs0 (by norm_num)))
      have hmod : jsMod s 3600 = s := by
        rw [jsMod, jsTrunc, if_pos (div_nonneg hs0 (by norm_num)), hz]
        push_cast
        ring
      simp only [formatVTTTime]
      rw [if_neg (by rw [hz]; norm_num)]
      rw [hmod]
    · intro hpos
      simp only [formatVTTTime]
      rw [if_pos hpos]

/-- Witness for C9 at 65.5 seconds: the hour count is zero and the VTT
rendering takes the hours-omitted minutes-seconds form. -/
theorem c9_time_formats_witness :
    (0 : ℚ) ≤ 65.5
    ∧ formatVTTTime (65.5 : ℚ)
        = padLeft (toString ⌊(65.5 : ℚ) / 60⌋) 2 '0' ++ ":"
          ++ padLeft (jsToFixed3 (jsMod (65.5 : ℚ) 60)) 6 '0' :=
  ⟨by norm_num, (c9_time_formats.2.2.2 65.5 (by norm_num)).1 (by norm_num)⟩
